import Mathlib

/-!
Verification development for the documango documentation browser.

Strings from the Go source are modelled as `List Char` (the relevant code
only manipulates ASCII, where Go's byte indexing coincides with character
indexing).  Byte slices are modelled as `List Nat`.  External collaborators
(SQLite's FTS5 `MATCH` and `bm25`, the zstd codec, SHA-256) are modelled as
explicit function parameters; everything else is translated directly from
the Go source files named in the comments.
-/

namespace Documango

/-! ## Shared string helpers (internal/shared, Go standard library models) -/

/-- Go `unicode.IsSpace` restricted to ASCII: the characters recognised by
`strings.Fields` and `strings.TrimSpace` in the inputs we model. -/
def isGoSpace (c : Char) : Bool :=
  c = ' ' || c = '\t' || c = '\n' || c = '\x0B' || c = '\x0C' || c = '\r'

/-- Accumulator worker for `goFields`. -/
def goFieldsAux : List Char → List Char → List (List Char)
  | [], acc => if acc = [] then [] else [acc.reverse]
  | c :: rest, acc =>
    if isGoSpace c then
      if acc = [] then goFieldsAux rest []
      else acc.reverse :: goFieldsAux rest []
    else goFieldsAux rest (c :: acc)

/-- Go `strings.Fields`: split around runs of whitespace, dropping empties. -/
def goFields (t : List Char) : List (List Char) := goFieldsAux t []

/-- Go `strings.Split(s, sep)` for a single-character separator. -/
def splitOnChar (sep : Char) : List Char → List (List Char)
  | [] => [[]]
  | c :: rest =>
    if c = sep then [] :: splitOnChar sep rest
    else
      match splitOnChar sep rest with
      | [] => [[c]]
      | t :: ts => (c :: t) :: ts

/-- Go `strings.ToLower` (ASCII). -/
def toLowerL (t : List Char) : List Char := t.map Char.toLower

/-- Go `strings.TrimSpace`. -/
def goTrim (t : List Char) : List Char :=
  ((t.dropWhile isGoSpace).reverse.dropWhile isGoSpace).reverse

/-- Go `strings.Index(text, pat)`: index of the first occurrence of `pat`
in `text`, `none` when absent.  (Arguments here are pattern first.) -/
def strIndex (pat : List Char) : List Char → Option Nat
  | [] => if pat = [] then some 0 else none
  | c :: rest =>
    if pat.isPrefixOf (c :: rest) then some 0
    else (strIndex pat rest).map (· + 1)

/-- Go `strconv.Atoi` digit run (no sign): `none` unless nonempty and all
decimal digits. -/
def digitsToNat (ds : List Char) : Option Nat :=
  if ds = [] then none
  else if ds.all Char.isDigit then
    some (ds.foldl (fun acc c => 10 * acc + (c.toNat - 48)) 0)
  else none

/-- Go `strconv.Atoi` on small inputs (64-bit overflow out of scope). -/
def goAtoi (s : List Char) : Option Int :=
  match s with
  | '+' :: rest => (digitsToNat rest).map (fun n => (n : Int))
  | '-' :: rest => (digitsToNat rest).map (fun n => -(n : Int))
  | _ => (digitsToNat s).map (fun n => (n : Int))

/-- `TruncateText` from internal/shared/text.go: truncates to `maxLen`
characters, appending "..." when a truncation happened. -/
def truncateText (text : List Char) (maxLen : Nat) : List Char :=
  if text.length ≤ maxLen then text else text.take maxLen ++ "...".data

/-! ## Store: query sanitization and resolution (internal/db/schema.go) -/

/-- The characters `SanitizeQuery` treats as FTS5-breaking: slash, hyphen,
dot, star, parentheses, colon and the double quote. -/
def ftsSpecialChars : List Char := ['/', '-', '.', '*', '(', ')', ':', '"']

/-- Doubling of embedded quotes, `strings.ReplaceAll(term, quote, 2 quotes)`. -/
def escQuote (t : List Char) : List Char :=
  (t.map (fun c => if c = '"' then ['"', '"'] else [c])).flatten

/-- Per-term step of `SanitizeQuery` (schema.go lines 472-491). -/
def sanitizeTerm (t : List Char) : List Char :=
  if t.head? = some '"' ∧ t.getLast? = some '"' then t
  else if "name:".data.isPrefixOf (toLowerL t) ∨ "type:".data.isPrefixOf (toLowerL t) ∨
      "body:".data.isPrefixOf (toLowerL t) then t
  else if t.any (fun c => ftsSpecialChars.contains c) then '"' :: (escQuote t ++ ['"'])
  else t

/-- `SanitizeQuery` (schema.go lines 461-494): quote terms containing FTS5
metacharacters, preserving column filters and already-quoted input. -/
def sanitizeQuery (q : List Char) : List Char :=
  if q = [] then q
  else if q.head? = some '"' ∧ q.getLast? = some '"' then q
  else List.intercalate [' '] ((goFields q).map sanitizeTerm)

/-- The recognised namespaces (`var namespaces`, schema.go line 206). -/
def nsList : List (List Char) :=
  ["atproto".data, "go".data, "rust".data, "hex".data, "github".data]

/-- Implicit-namespace extraction from `SearchPackage` (schema.go lines
223-246).  Returns the refined query and the package filter it induces. -/
def resolvePackage (query pp : List Char) : List Char × List Char :=
  if pp = [] ∧ '/' ∈ query then
    let parts := splitOnChar '/' query
    if 2 ≤ parts.length then
      let ns := parts.headI
      if ns ∈ nsList then
        let pp1 := ns ++ ['/']
        let rem := parts.tail
        let step :=
          if ns = "atproto".data then
            if 2 ≤ rem.length ∧ rem.headI = "lexicon".data then
              (pp1 ++ "lexicon/".data, rem.tail)
            else if 2 ≤ rem.length ∧ rem.headI = "docs".data then
              (pp1 ++ "docs/".data, rem.tail)
            else if 2 ≤ rem.length ∧ rem.headI = "spec".data then
              (pp1 ++ "spec/".data, rem.tail)
            else (pp1, rem)
          else if 2 ≤ rem.length then (pp1 ++ rem.headI ++ ['/'], rem.tail)
          else (pp1, rem)
        (List.intercalate [' '] step.2, step.1)
      else (query, pp)
    else (query, pp)
  else (query, pp)

/-- A row of the `search_index` FTS5 virtual table. -/
structure SearchRow where
  name : List Char
  typ : List Char
  body : List Char
  docId : Int
  deriving DecidableEq

/-- A row of `SearchPackage`'s result set (`db.SearchResult`). -/
structure SearchResult where
  name : List Char
  typ : List Char
  docId : Int
  score : Int
  deriving DecidableEq

/-- Errors surfaced by the modelled SQLite layer. -/
inductive SqlError where
  | ftsSyntax
  deriving DecidableEq

/-- Go's `(value, error)` pair, with exactly one side populated. -/
inductive GoResult (ε α : Type) where
  | ok (val : α)
  | err (e : ε)
  deriving DecidableEq

/-- Model of SQLite `path LIKE p || percent`: default LIKE is
case-insensitive over ASCII, and ingested package filters contain no
wildcard metacharacters, so it is a case-folded initial-segment test. -/
def likeStarts (p path : List Char) : Bool :=
  (toLowerL p).isPrefixOf (toLowerL path)

/-- The `WHERE` clause of `SearchPackage`'s SQL: FTS5 match plus the
optional `documents.path LIKE` filter from the JOIN. -/
def matchedRows (fts : List Char → SearchRow → Bool)
    (table : List (SearchRow × List Char)) (q pp : List Char) :
    List (SearchRow × List Char) :=
  if pp ≠ [] then table.filter (fun rp => fts q rp.1 && likeStarts pp rp.2)
  else table.filter (fun rp => fts q rp.1)

/-- The `SELECT` score expression of `SearchPackage`:
`(CASE WHEN name = ? THEN 100 ELSE 0 END) - bm25(search_index, 5.0, 1.0, 1.0)`
with the placeholder bound to the sanitized query `q`. -/
def scoreRow (bm25 : ℚ → ℚ → ℚ → List Char → SearchRow → Int)
    (q : List Char) (row : SearchRow) : Int :=
  (if row.name = q then (100 : Int) else 0) - bm25 5 1 1 q row

/-- `Store.SearchPackage` (schema.go lines 218-288).  The FTS5 matcher and
the `bm25` ranking function live inside SQLite and are passed in as
parameters; `table` pairs every `search_index` row with the path of the
document it references.  SQLite rejects `MATCH` on the empty pattern with
an fts5 syntax error, which the Go code surfaces as the query error. -/
def searchPackage (fts : List Char → SearchRow → Bool)
    (bm25 : ℚ → ℚ → ℚ → List Char → SearchRow → Int)
    (table : List (SearchRow × List Char))
    (query pp : List Char) (limit : Int) :
    GoResult SqlError (List SearchResult) :=
  let lim : Int := if limit ≤ 0 then 20 else limit
  let rq := resolvePackage query pp
  let q := sanitizeQuery rq.1
  if q = [] then .err .ftsSyntax
  else
    .ok ((((matchedRows fts table q rq.2).map (fun rp =>
      { name := rp.1.name, typ := rp.1.typ, docId := rp.1.docId,
        score := scoreRow bm25 q rp.1 })).insertionSort
        (fun a b => b.score ≤ a.score)).take lim.toNat)

/-- `Store.Search` (schema.go lines 202-204): delegates with empty package. -/
def searchStore (fts : List Char → SearchRow → Bool)
    (bm25 : ℚ → ℚ → ℚ → List Char → SearchRow → Int)
    (table : List (SearchRow × List Char)) (query : List Char) (limit : Int) :
    GoResult SqlError (List SearchResult) :=
  searchPackage fts bm25 table query [] limit

/-! ## Store: transactional writers and SQLite table semantics
(internal/db/schema.go lines 169-200, schema lines 1-33) -/

/-- A row of the `documents` table (`id INTEGER PRIMARY KEY, path UNIQUE`). -/
structure DocRow where
  id : Nat
  path : List Char
  format : List Char
  body : List Nat
  rawHtml : List Nat
  hash : List Char
  deriving DecidableEq

/-- A row of the `search_index` FTS5 table together with its rowid. -/
structure SIRow where
  rowid : Nat
  name : List Char
  typ : List Char
  body : List Char
  docId : Nat
  deriving DecidableEq

/-- A row of `agent_context` (doc_id references documents ON DELETE CASCADE). -/
structure ACRow where
  docId : Nat
  symbol : List Char
  signature : List Char
  summary : List Char
  deriving DecidableEq

/-- The three persisted tables. -/
structure DbState where
  documents : List DocRow
  searchIndex : List SIRow
  agentContext : List ACRow
  deriving DecidableEq

def emptyDb : DbState := ⟨[], [], []⟩

/-- SQLite assigns a fresh rowid of max-current-rowid plus one. -/
def maxDocId (rows : List DocRow) : Nat := rows.foldr (fun r a => max r.id a) 0

def maxRowid (rows : List SIRow) : Nat := rows.foldr (fun r a => max r.rowid a) 0

/-- The argument record of `InsertDocumentTx` (`db.Document`). -/
structure DocumentIn where
  path : List Char
  format : List Char
  body : List Nat
  rawHtml : List Nat
  hash : List Char
  deriving DecidableEq

/-- `InsertDocumentTx` (schema.go lines 169-182):
`INSERT OR REPLACE INTO documents` assigns the incoming row the next rowid
(max over the table as it stands, BEFORE the conflict resolution), then the
REPLACE deletes any row with the same unique `path`, cascading that delete
into `agent_context`, and the insert proceeds under the fresh id; returns
`LastInsertId`.  A replaced document therefore never keeps its old id. -/
def insertDocumentTx (shaHex : List Nat → List Char) (db : DbState)
    (doc : DocumentIn) : Nat × DbState :=
  let hash := if doc.hash = [] then shaHex doc.body else doc.hash
  let newId := maxDocId db.documents + 1
  let deletedIds := (db.documents.filter (fun r => r.path = doc.path)).map (·.id)
  let kept := db.documents.filter (fun r => r.path ≠ doc.path)
  (newId,
    { documents := kept ++ [⟨newId, doc.path, doc.format, doc.body, doc.rawHtml, hash⟩],
      searchIndex := db.searchIndex,
      agentContext := db.agentContext.filter (fun r => ¬ deletedIds.contains r.docId) })

/-- `InsertSearchEntryTx` (schema.go lines 184-191):
`INSERT OR REPLACE INTO search_index` without an explicit rowid has no
uniqueness conflict to replace on an FTS5 table, so SQLite performs a
plain insert at a fresh rowid. -/
def insertSearchEntryTx (db : DbState) (name typ body : List Char)
    (docId : Nat) : DbState :=
  { db with searchIndex :=
      db.searchIndex ++ [⟨maxRowid db.searchIndex + 1, name, typ, body, docId⟩] }

/-- `InsertAgentContextTx` (schema.go lines 193-200): plain insert. -/
def insertAgentContextTx (db : DbState) (docId : Nat)
    (symbol signature summary : List Char) : DbState :=
  { db with agentContext := db.agentContext ++ [⟨docId, symbol, signature, summary⟩] }

/-- The upsert path every ingestor uses inside `WithTx` (for example
internal/ingest/golang/golang.go lines 584-600): insert the document to
obtain its id, then its search entries, then its symbol contexts. -/
def ingestDocument (shaHex : List Nat → List Char) (db : DbState)
    (doc : DocumentIn) (entries : List (List Char × List Char × List Char))
    (ctxs : List (List Char × List Char × List Char)) : DbState :=
  let r := insertDocumentTx shaHex db doc
  let db1 := entries.foldl
    (fun d e => insertSearchEntryTx d e.1 e.2.1 e.2.2 r.1) r.2
  ctxs.foldl (fun d c => insertAgentContextTx d r.1 c.1 c.2.1 c.2.2) db1

/-! ## Web search layer (internal/web/search.go) -/

/-- `extractSearchTerms` helper: Go `strings.Trim(word, quote)`. -/
def trimQuotes (w : List Char) : List Char :=
  ((w.dropWhile (fun c => c = '"')).reverse.dropWhile (fun c => c = '"')).reverse

/-- Column-filter detection shared by `extractSearchTerms`. -/
def isColFilter (w : List Char) : Bool :=
  "name:".data.isPrefixOf (toLowerL w) || "type:".data.isPrefixOf (toLowerL w) ||
    "body:".data.isPrefixOf (toLowerL w)

/-- `extractSearchTerms` (search.go lines 223-243). -/
def extractSearchTerms (query : List Char) : List (List Char) :=
  (goFields query).filterMap fun w0 =>
    let w := trimQuotes w0
    if isColFilter w then none
    else if 0 < w.length then some w else none

/-- The matchIndex loop of `generateSnippet` (search.go lines 190-198):
the earliest case-insensitive occurrence of any term. -/
def earliestMatch (lowerText : List Char) : List (List Char) → Option Nat
  | [] => none
  | t :: ts =>
    match strIndex (toLowerL t) lowerText, earliestMatch lowerText ts with
    | none, r => r
    | some i, none => some i
    | some i, some j => some (min i j)

/-- Fuelled worker for `highlightTerm`; the fuel `text.length` dominates the
number of non-overlapping matches. -/
def highlightAux : Nat → List Char → List Char → List Char
  | 0, text, _ => text
  | n + 1, text, term =>
    match strIndex (toLowerL term) (toLowerL text) with
    | none => text
    | some i =>
      text.take i ++ "<mark>".data ++ (text.drop i).take term.length ++
        "</mark>".data ++ highlightAux n (text.drop (i + term.length)) term

/-- `highlightTerm` (search.go lines 246-274): wrap every non-overlapping
case-insensitive occurrence of `term` in mark tags. -/
def highlightTerm (text term : List Char) : List Char :=
  if term = [] then text else highlightAux text.length text term

/-- Newline replacement, `strings.ReplaceAll(text, newline, space)`. -/
def replaceNewlines (t : List Char) : List Char :=
  t.map fun c => if c = '\n' then ' ' else c

/-- One pass of `strings.ReplaceAll(text, 2 spaces, 1 space)`: leftmost,
non-overlapping. -/
def replaceDoubleSpace : List Char → List Char
  | ' ' :: ' ' :: rest => ' ' :: replaceDoubleSpace rest
  | c :: rest => c :: replaceDoubleSpace rest
  | [] => []

/-- The whitespace normalization of `generateSnippet` (search.go 179-182). -/
def normText (body : List Char) : List Char :=
  goTrim (replaceDoubleSpace (replaceNewlines body))

/-- `generateSnippet` (search.go lines 174-220). -/
def generateSnippet (body query : List Char) : List Char :=
  if body.length = 0 then []
  else
    let text := normText body
    let terms := extractSearchTerms query
    if terms = [] then truncateText text 200
    else
      match earliestMatch (toLowerL text) terms with
      | none => truncateText text 200
      | some matchIdx =>
        let stop := min (matchIdx + 120) text.length
        terms.foldl highlightTerm
          ((if 0 < matchIdx - 80 then "...".data else []) ++
            ((text.take stop).drop (matchIdx - 80)) ++
            (if stop < text.length then "...".data else []))

/-- Count of non-overlapping occurrences of `pat` in `text` (used only to
state snippet properties). -/
def countOccAux : Nat → List Char → List Char → Nat
  | 0, _, _ => 0
  | n + 1, text, pat =>
    match strIndex pat text with
    | none => 0
    | some i => 1 + countOccAux n (text.drop (i + pat.length)) pat

def countOcc (text pat : List Char) : Nat :=
  if pat = [] then 0 else countOccAux text.length text pat

/-- `extractPackageFromPath` (search.go lines 277-286). -/
def extractPackageFromPath (path : List Char) : List Char :=
  let parts := splitOnChar '/' path
  if 2 ≤ parts.length then parts.headI ++ ['/'] ++ parts.tail.headI
  else if parts.length = 1 then parts.headI
  else []

/-- A `db.Document` as consumed by the web handlers. -/
structure WebDoc where
  path : List Char
  format : List Char
  body : List Char
  hash : List Char
  deriving DecidableEq

/-- `web.SearchResultItem`. -/
structure SearchResultItem where
  path : List Char
  title : List Char
  snippet : List Char
  score : Int
  package : List Char
  deriving DecidableEq

/-- `performSearch` (search.go lines 116-151): over-fetch by `offset`,
skip, truncate to `limit`, drop rows whose document cannot be read, and
report the length of what is left as the total. -/
def performSearch (fts : List Char → SearchRow → Bool)
    (bm25 : ℚ → ℚ → ℚ → List Char → SearchRow → Int)
    (table : List (SearchRow × List Char)) (readDoc : Int → Option WebDoc)
    (query pkg : List Char) (limit offset : Int) :
    GoResult SqlError (List SearchResultItem × Nat) :=
  match searchPackage fts bm25 table query pkg (limit + offset) with
  | .err e => .err e
  | .ok dbResults =>
    let off : Int := if (dbResults.length : Int) < offset then (dbResults.length : Int) else offset
    let afterOff := dbResults.drop off.toNat
    let capped := if (limit : Int) < (afterOff.length : Int) then afterOff.take limit.toNat else afterOff
    let results := capped.filterMap fun r =>
      (readDoc r.docId).map fun doc =>
        { path := doc.path, title := r.name,
          snippet := generateSnippet doc.body query,
          score := r.score, package := extractPackageFromPath doc.path }
    .ok (results, results.length)

/-- `parseIntParam` (search.go lines 161-171); `none` models an absent
parameter, for which Go's `Query().Get` yields the empty string. -/
def parseIntParam (val : Option String) (fallback : Int) : Int :=
  match val with
  | none => fallback
  | some v =>
    if v = "" then fallback
    else
      match goAtoi v.data with
      | none => fallback
      | some n => if n < 0 then fallback else n

/-- The limit computation of `handleAPISearch` (search.go lines 58-61):
default 20, capped at 100. -/
def requestLimit (v : Option String) : Int :=
  let l := parseIntParam v 20
  if l > 100 then 100 else l

/-- The observable response of `handleAPISearch`. -/
inductive ApiResp where
  | fail (status : Nat) (message code : String)
  | good (status : Nat) (query : List Char) (total : Nat)
      (results : List SearchResultItem)
  deriving DecidableEq

/-- `handleAPISearch` (search.go lines 48-79). -/
def handleAPISearch (fts : List Char → SearchRow → Bool)
    (bm25 : ℚ → ℚ → ℚ → List Char → SearchRow → Int)
    (table : List (SearchRow × List Char)) (readDoc : Int → Option WebDoc)
    (qParam pkgParam limitParam offsetParam : Option String) : ApiResp :=
  let query := goTrim (qParam.getD "").data
  if query = [] then .fail 400 "query parameter required" "missing_param"
  else
    let pkg := (pkgParam.getD "").data
    let lim := requestLimit limitParam
    let off := parseIntParam offsetParam 0
    match performSearch fts bm25 table readDoc query pkg lim off with
    | .err _ => .fail 500 "search failed" "search_error"
    | .ok (results, total) => .good 200 query total results

/-! ## Cache (internal/cache/cache.go, internal/cache/xdg.go) -/

inductive CacheError where
  | notFound
  | expired
  | fileMissing
  deriving DecidableEq

/-- `cache.CacheEntry`; `expiresAt = 0` is Go's zero time, meaning never. -/
structure CEntry where
  path : List Char
  source : List Char
  etag : List Char
  fetchedAt : Nat
  expiresAt : Nat
  size : Nat
  checksum : List Nat
  deriving DecidableEq

/-- `CacheEntry.IsExpired` (xdg.go lines 104-109) at clock reading `now`. -/
def isExpiredAt (now : Nat) (e : CEntry) : Bool :=
  if e.expiresAt = 0 then false else decide (e.expiresAt < now)

/-- The cache directory plus the in-memory manifest, both keyed by the
cache key (entry paths equal their keys, as `Put` sets `entry.Path = key`). -/
structure CacheState where
  files : List (List Char × List Nat)
  manifest : List (List Char × CEntry)
  deriving DecidableEq

def assocGet {β : Type} (l : List (List Char × β)) (k : List Char) : Option β :=
  match l with
  | [] => none
  | p :: rest => if p.1 = k then some p.2 else assocGet rest k

/-- Map update: Go map assignment replaces the previous binding. -/
def assocSet {β : Type} (l : List (List Char × β)) (k : List Char) (v : β) :
    List (List Char × β) :=
  (l.filter (fun p => p.1 ≠ k)) ++ [(k, v)]

/-- `FilesystemCache.Put` (cache.go lines 100-155): stream the bytes while
hashing them, rename into place, then record size, checksum, fetch time
and optional expiry in the manifest.  Filesystem failures are out of
scope, so the model always succeeds. -/
def cachePut (sha : List Nat → List Nat) (st : CacheState)
    (key source : List Char) (data : List Nat) (ttl now : Nat) :
    CEntry × CacheState :=
  let e : CEntry :=
    { path := key, source := source, etag := [], fetchedAt := now,
      expiresAt := if 0 < ttl then now + ttl else 0,
      size := data.length, checksum := sha data }
  (e, { files := assocSet st.files key data,
        manifest := assocSet st.manifest key e })

/-- `FilesystemCache.Validate` (cache.go lines 196-216) via `Get` (lines
76-97): look the entry up, fail on expiry or a missing backing file, and
otherwise compare the recomputed digest with the stored checksum. -/
def cacheValidate (sha : List Nat → List Nat) (st : CacheState) (now : Nat)
    (key : List Char) : GoResult CacheError Bool :=
  match assocGet st.manifest key with
  | none => .err .notFound
  | some e =>
    if isExpiredAt now e then .err .expired
    else
      match assocGet st.files e.path with
      | none => .err .fileMissing
      | some fileData => .ok (decide (sha fileData = e.checksum))

/-! ## Codec (internal/codec/zstd.go) -/

inductive CodecError where
  | initFailed
  | corrupt
  deriving DecidableEq

/-- `codec.Compress` (zstd.go lines 32-38): after a successful one-time
encoder initialization, the bytes are exactly `EncodeAll` of the input,
with no extra header or envelope added by this package. -/
def codecCompress (encInit : Option CodecError)
    (encodeAll : List Nat → List Nat) (data : List Nat) :
    GoResult CodecError (List Nat) :=
  match encInit with
  | some e => .err e
  | none => .ok (encodeAll data)

/-- `codec.Decompress` (zstd.go lines 40-46): the input bytes are handed
directly to `DecodeAll`, which may fail on malformed input. -/
def codecDecompress (decInit : Option CodecError)
    (decodeAll : List Nat → GoResult CodecError (List Nat)) (data : List Nat) :
    GoResult CodecError (List Nat) :=
  match decInit with
  | some e => .err e
  | none => decodeAll data

/-! ## MCP handlers (internal/mcp/handlers.go) -/

inductive McpError where
  | notFound
  | corrupt
  deriving DecidableEq

/-- A `db.Document` as read by the MCP handlers (body is compressed bytes). -/
structure MDoc where
  path : List Char
  format : List Char
  body : List Nat
  rawHtml : List Nat
  hash : List Char
  deriving DecidableEq

/-- `ReadDocOutput`. -/
structure ReadDocOut where
  content : List Nat
  format : List Char
  deriving DecidableEq

/-- `Handlers.ReadDocHandler` (handlers.go lines 28-43): read the document,
attempt decompression whenever the format is zstd or the body is nonempty,
and keep the stored bytes when decompression fails, reporting no error. -/
def readDocHandler (readDocument : List Char → GoResult McpError MDoc)
    (decompress : List Nat → GoResult McpError (List Nat)) (path : List Char) :
    GoResult McpError ReadDocOut :=
  match readDocument path with
  | .err e => .err e
  | .ok doc =>
    let body :=
      if doc.format = "zstd".data ∨ 0 < doc.body.length then
        match decompress doc.body with
        | .ok d => d
        | .err _ => doc.body
      else doc.body
    .ok ⟨body, "markdown".data⟩

/-! ## Concrete instantiations used by tests and witnesses -/

/-- An FTS5 matcher accepting every row (trigram matching abstracted). -/
def ftsAll : List Char → SearchRow → Bool := fun _ _ => true

/-- A bm25 ranking that is identically zero. -/
def bmZero : ℚ → ℚ → ℚ → List Char → SearchRow → Int := fun _ _ _ _ _ => 0

/-- A document reader that finds nothing. -/
def rdNone : Int → Option WebDoc := fun _ => none

/-- A document reader with a single readable document. -/
def exMDoc : MDoc := ⟨"go/x".data, "markdown".data, [9, 9], [], "h".data⟩

/-- The search-index row used in the C2 scoring test. -/
def dialRow : SearchRow := ⟨"net.Dial".data, "Func".data, "Dial connects".data, 7⟩

/-- Rows used in the C4 resolution test. -/
def serdeRow : SearchRow := ⟨"Serialize".data, "Trait".data, "Serialize docs".data, 3⟩

def otherRow : SearchRow := ⟨"Serialize".data, "Type".data, "other".data, 9⟩

/-- The ingest unit used in the re-ingest test: one document, one search
entry, one symbol context, exactly as the ingestors hand them to the Store. -/
def exDoc : DocumentIn :=
  ⟨"go/example/pkg".data, "markdown".data, [1, 2, 3], [], "abc".data⟩

def exEntries : List (List Char × List Char × List Char) :=
  [("pkg".data, "Package".data, "Hello world".data)]

def exCtxs : List (List Char × List Char × List Char) :=
  [("pkg".data, "package pkg".data, "doc summary".data)]

/-- Database state after one ingest of the unit over an empty database. -/
def dbRun1 : DbState := ingestDocument (fun _ => []) emptyDb exDoc exEntries exCtxs

/-- Database state after re-ingesting the identical unit. -/
def dbRun2 : DbState := ingestDocument (fun _ => []) dbRun1 exDoc exEntries exCtxs

/-- The no-match snippet test body: 201 letters. -/
def longBody : List Char := List.replicate 201 'a'

/-! ## Helper lemmas -/

set_option maxRecDepth 100000

theorem assocGet_assocSet {β : Type} (l : List (List Char × β)) (k : List Char)
    (v : β) : assocGet (assocSet l k v) k = some v := by
  induction l with
  | nil => simp [assocSet, assocGet]
  | cons p rest ih =>
    rcases eq_or_ne p.1 k with h | h
    · simpa [assocSet, List.filter_cons, h] using ih
    · simpa [assocSet, List.filter_cons, h, assocGet] using ih

theorem mem_of_matchedRows {fts : List Char → SearchRow → Bool}
    {table : List (SearchRow × List Char)} {q pp : List Char}
    {rp : SearchRow × List Char} (h : rp ∈ matchedRows fts table q pp) :
    rp ∈ table := by
  unfold matchedRows at h
  split at h <;> exact (List.mem_filter.1 h).1

theorem truncateText_eq_take (t : List Char) (n : Nat) :
    truncateText t n = t.take n ++ (if t.length ≤ n then [] else "...".data) := by
  unfold truncateText
  split
  · next h => rw [List.take_of_length_le h, List.append_nil]
  · rfl

theorem cacheValidate_assocSet (sha : List Nat → List Nat)
    (files : List (List Char × List Nat)) (manifest : List (List Char × CEntry))
    (key : List Char) (fd : List Nat) (e : CEntry) (now' : Nat)
    (hpath : e.path = key) (hfresh : isExpiredAt now' e = false) :
    cacheValidate sha ⟨assocSet files key fd, assocSet manifest key e⟩ now' key
      = .ok (decide (sha fd = e.checksum)) := by
  simp [cacheValidate, assocGet_assocSet, hfresh, hpath]

/-! ## Claim theorems -/

/-- C1: the claim states that two consecutive runs of the same ingest over
identical content leave all three tables bit-identical with no duplicate
search-index rows.  The code violates this: the re-ingested document gets
a fresh id (SQLite picks the rowid before the REPLACE delete), `INSERT OR
REPLACE` into the FTS5 `search_index` table never replaces (no rowid is
supplied), and no caller deletes the old rows, so after the second run the
documents table changed id, and the search index holds two postings for the
same content — the first a stale row still pointing at the deleted
document id 1, which no surviving document carries. -/
theorem c1_reingest_duplicates_search_rows :
    dbRun1.searchIndex.length = 1 ∧
    dbRun2.searchIndex.length = 2 ∧
    dbRun2.documents ≠ dbRun1.documents ∧
    dbRun2.searchIndex ≠ dbRun1.searchIndex ∧
    (dbRun2.documents.map fun r => r.id) = [2] ∧
    dbRun2.agentContext =
      [⟨2, "pkg".data, "package pkg".data, "doc summary".data⟩] ∧
    (dbRun2.searchIndex.map fun r => (r.name, r.typ, r.body, r.docId)) =
      [("pkg".data, "Package".data, "Hello world".data, 1),
       ("pkg".data, "Package".data, "Hello world".data, 2)] := by
  decide

/-- C2 counterexample: for the verbatim query `net.Dial` (which contains a
dot), a returned row whose name is exactly `net.Dial` scores 0 under a zero
bm25, whereas the claim's formula — the CASE boost against the verbatim
query — yields 100. -/
theorem c2_verbatim_boost_fails :
    searchPackage ftsAll bmZero [(dialRow, "go/net/dial".data)]
      "net.Dial".data [] 10 =
      .ok [{ name := "net.Dial".data, typ := "Func".data, docId := 7, score := 0 }] ∧
    dialRow.name = "net.Dial".data ∧
    (if dialRow.name = "net.Dial".data then (100 : Int) else 0)
      - bmZero 5 1 1 "net.Dial".data dialRow = 100 ∧
    (0 : Int) ≠ 100 := by
  decide

/-- C2 (amended): every row returned by `SearchPackage` scores
`(CASE WHEN name = q THEN 100 ELSE 0) - bm25(5.0, 1.0, 1.0)` where `q` is
the SANITIZED namespace-refined query, not the verbatim user query; the
+100 boost therefore reaches an exact name match only when sanitization
leaves the refined query unchanged. -/
theorem c2_score_uses_sanitized_query
    (fts : List Char → SearchRow → Bool)
    (bm25 : ℚ → ℚ → ℚ → List Char → SearchRow → Int)
    (table : List (SearchRow × List Char)) (query pp : List Char) (limit : Int)
    (res : List SearchResult) (r : SearchResult)
    (hok : searchPackage fts bm25 table query pp limit = .ok res)
    (hr : r ∈ res) :
    ∃ row pth, (row, pth) ∈ table ∧ r.name = row.name ∧ r.typ = row.typ ∧
      r.docId = row.docId ∧
      r.score =
        (if row.name = sanitizeQuery (resolvePackage query pp).1 then (100 : Int) else 0)
          - bm25 5 1 1 (sanitizeQuery (resolvePackage query pp).1) row := by
  simp only [searchPackage] at hok
  split at hok
  · cases hok
  · injection hok with h
    subst h
    have h1 := List.take_subset _ _ hr
    have h2 := (List.perm_insertionSort _ _).mem_iff.1 h1
    obtain ⟨rp, hmem, hfr⟩ := List.mem_map.1 h2
    subst hfr
    exact ⟨rp.1, rp.2, mem_of_matchedRows hmem, rfl, rfl, rfl, rfl⟩

/-- C2 witness: the amended score law applied at a concrete search. -/
theorem c2_score_witness :
    ∃ row pth, (row, pth) ∈ [(dialRow, "go/net/dial".data)] ∧
      ({ name := "net.Dial".data, typ := "Func".data, docId := 7, score := 0 } :
        SearchResult).name = row.name ∧
      ({ name := "net.Dial".data, typ := "Func".data, docId := 7, score := 0 } :
        SearchResult).typ = row.typ ∧
      ({ name := "net.Dial".data, typ := "Func".data, docId := 7, score := 0 } :
        SearchResult).docId = row.docId ∧
      ({ name := "net.Dial".data, typ := "Func".data, docId := 7, score := 0 } :
        SearchResult).score =
        (if row.name = sanitizeQuery (resolvePackage "net.Dial".data []).1
          then (100 : Int) else 0)
          - bmZero 5 1 1 (sanitizeQuery (resolvePackage "net.Dial".data []).1) row :=
  c2_score_uses_sanitized_query ftsAll bmZero [(dialRow, "go/net/dial".data)]
    "net.Dial".data [] 10
    [{ name := "net.Dial".data, typ := "Func".data, docId := 7, score := 0 }]
    { name := "net.Dial".data, typ := "Func".data, docId := 7, score := 0 }
    (by decide) (by decide)

/-- C3: a request whose `q` parameter trims to the empty string is rejected
with status 400 and code `missing_param`; and `SearchPackage` on the empty
query never reaches the result path — the FTS layer rejects a `MATCH` on
the empty pattern and the Store surfaces the error. -/
theorem c3_empty_query_refused :
    (∀ (fts : List Char → SearchRow → Bool)
        (bm25 : ℚ → ℚ → ℚ → List Char → SearchRow → Int)
        (table : List (SearchRow × List Char)) (readDoc : Int → Option WebDoc)
        (qP pkgP lP oP : Option String),
      goTrim (qP.getD "").data = [] →
      handleAPISearch fts bm25 table readDoc qP pkgP lP oP =
        ApiResp.fail 400 "query parameter required" "missing_param") ∧
    (∀ (fts : List Char → SearchRow → Bool)
        (bm25 : ℚ → ℚ → ℚ → List Char → SearchRow → Int)
        (table : List (SearchRow × List Char)) (pp : List Char) (limit : Int),
      searchPackage fts bm25 table [] pp limit = .err .ftsSyntax) := by
  constructor
  · intro fts bm25 table readDoc qP pkgP lP oP h
    simp [handleAPISearch, h]
  · intro fts bm25 table pp limit
    simp [searchPackage, resolvePackage, sanitizeQuery]

/-- C3 witness: a whitespace-only request and an empty Store query. -/
theorem c3_empty_query_witness :
    handleAPISearch ftsAll bmZero [] rdNone (some "   ") none none none =
      ApiResp.fail 400 "query parameter required" "missing_param" ∧
    searchPackage ftsAll bmZero [] [] [] 5 = .err .ftsSyntax :=
  ⟨c3_empty_query_refused.1 ftsAll bmZero [] rdNone (some "   ") none none none
      (by decide),
    c3_empty_query_refused.2 ftsAll bmZero [] [] 5⟩

/-- C4: with an empty package filter the query `rust/serde/Serialize`
resolves to the package `rust/serde/` and refined query `Serialize` (and the
full search then boosts the exact match and keeps only rust/serde paths),
while the query `/` has the unrecognised first segment `""` and passes
through resolution unchanged, on to sanitization. -/
theorem c4_namespace_extraction :
    resolvePackage "rust/serde/Serialize".data [] =
      ("Serialize".data, "rust/serde/".data) ∧
    resolvePackage "/".data [] = ("/".data, []) ∧
    searchPackage ftsAll bmZero
      [(serdeRow, "rust/serde/1.0.219/serde/trait.Serialize.html".data),
       (otherRow, "go/other/pkg".data)]
      "rust/serde/Serialize".data [] 10 =
      .ok [{ name := "Serialize".data, typ := "Trait".data, docId := 3, score := 100 }] := by
  decide

/-- C5 counterexample: when no term matches, the code returns the first 200
characters of the normalized text FOLLOWED BY an ellipsis marker (shared
`TruncateText` appends "..." on truncation), so on a 201-character body the
snippet is not the first 200 characters as the claim states, and its length
is 203. -/
theorem c5_no_match_truncation_fails :
    generateSnippet longBody "zzz".data = List.replicate 200 'a' ++ "...".data ∧
    generateSnippet longBody "zzz".data ≠ longBody.take 200 ∧
    (generateSnippet longBody "zzz".data).length = 203 := by
  decide

/-- C5 (amended): snippet generation as implemented — the fox example holds
verbatim (one highlighted occurrence, length at most 203); when no
extracted term occurs, the snippet is the first 200 characters of the
normalized text with "..." appended exactly when that text is longer than
200; when a term occurs earliest at index i, the snippet is the window from
80 before to 120 after i, with "..." prepended exactly when truncated left
and appended exactly when truncated right, and every term highlighted. -/
theorem c5_snippet_windowing :
    (generateSnippet "The quick brown fox jumps over the lazy dog".data "Fox".data =
        "The quick brown <mark>fox</mark> jumps over the lazy dog".data ∧
      countOcc "The quick brown <mark>fox</mark> jumps over the lazy dog".data
        "<mark>fox</mark>".data = 1 ∧
      ("The quick brown <mark>fox</mark> jumps over the lazy dog".data).length ≤ 203) ∧
    (∀ body query,
      (extractSearchTerms query = [] ∨
        earliestMatch (toLowerL (normText body)) (extractSearchTerms query) = none) →
      generateSnippet body query = (normText body).take 200 ++
        (if (normText body).length ≤ 200 then [] else "...".data)) ∧
    (∀ body query i, body ≠ [] → extractSearchTerms query ≠ [] →
      earliestMatch (toLowerL (normText body)) (extractSearchTerms query) = some i →
      generateSnippet body query = (extractSearchTerms query).foldl highlightTerm
        ((if 0 < i - 80 then "...".data else []) ++
          ((normText body).take (min (i + 120) (normText body).length)).drop (i - 80) ++
          (if min (i + 120) (normText body).length < (normText body).length
            then "...".data else []))) := by
  refine ⟨⟨by decide, by decide, by decide⟩, ?_, ?_⟩
  · intro body query h
    by_cases hb : body.length = 0
    · have hb' : body = [] := List.length_eq_zero.1 hb
      subst hb'
      simp [generateSnippet, normText, replaceNewlines, replaceDoubleSpace, goTrim]
    · simp only [generateSnippet, if_neg hb]
      by_cases ht : extractSearchTerms query = []
      · rw [if_pos ht]
        exact truncateText_eq_take _ _
      · rw [if_neg ht]
        rcases h with h | h
        · exact absurd h ht
        · rw [h]
          exact truncateText_eq_take _ _
  · intro body query i hb ht hsome
    have hb0 : ¬ body.length = 0 := by simpa [List.length_eq_zero] using hb
    simp only [generateSnippet, if_neg hb0, if_neg ht]
    rw [hsome]

/-- C5 witness: the no-match branch on a short body and the window branch on
a matching body, both at concrete inputs. -/
theorem c5_snippet_witness :
    (generateSnippet "hi".data "zzz".data = (normText "hi".data).take 200 ++
      (if (normText "hi".data).length ≤ 200 then [] else "...".data)) ∧
    (generateSnippet "abc".data "b".data =
      (extractSearchTerms "b".data).foldl highlightTerm
        ((if 0 < 1 - 80 then "...".data else []) ++
          ((normText "abc".data).take
            (min (1 + 120) (normText "abc".data).length)).drop (1 - 80) ++
          (if min (1 + 120) (normText "abc".data).length < (normText "abc".data).length
            then "...".data else []))) :=
  ⟨c5_snippet_windowing.2.1 "hi".data "zzz".data (Or.inr (by decide)),
    c5_snippet_windowing.2.2 "abc".data "b".data 1 (by decide) (by decide) (by decide)⟩

/-- C6: after `Put`, the manifest checksum is the digest of the streamed
bytes and `Validate` answers true; if the backing file is later replaced by
bytes with a different digest, `Validate` answers false.  The hash is the
abstract SHA-256; the byte-flip half of the claim holds exactly under
SHA-256's collision-freeness on the two contents, taken as the `hdiff`
hypothesis. -/
theorem c6_cache_checksum_integrity
    (sha : List Nat → List Nat) (st : CacheState) (key source : List Char)
    (data tampered : List Nat) (ttl now now' : Nat)
    (hfresh : isExpiredAt now' (cachePut sha st key source data ttl now).1 = false)
    (hdiff : sha tampered ≠ sha data) :
    (cachePut sha st key source data ttl now).1.checksum = sha data ∧
    cacheValidate sha (cachePut sha st key source data ttl now).2 now' key =
      .ok true ∧
    cacheValidate sha
      { (cachePut sha st key source data ttl now).2 with
        files := assocSet (cachePut sha st key source data ttl now).2.files
          key tampered }
      now' key = .ok false := by
  refine ⟨rfl, ?_, ?_⟩
  · rw [show (cachePut sha st key source data ttl now).2 =
        ⟨assocSet st.files key data,
          assocSet st.manifest key (cachePut sha st key source data ttl now).1⟩ from rfl,
      cacheValidate_assocSet sha st.files st.manifest key data _ now' rfl hfresh]
    simp [cachePut]
  · rw [show ({ (cachePut sha st key source data ttl now).2 with
          files := assocSet (cachePut sha st key source data ttl now).2.files
            key tampered } : CacheState) =
        ⟨assocSet (assocSet st.files key data) key tampered,
          assocSet st.manifest key (cachePut sha st key source data ttl now).1⟩ from rfl,
      cacheValidate_assocSet sha _ st.manifest key tampered _ now' rfl hfresh]
    simp [cachePut, hdiff]

/-- C6 witness: identity digest, a two-byte file, and a one-byte flip. -/
theorem c6_cache_checksum_witness :
    (cachePut (fun l => l) ⟨[], []⟩ "k".data "src".data [0, 1] 0 5).1.checksum =
      (fun (l : List Nat) => l) [0, 1] ∧
    cacheValidate (fun l => l)
      (cachePut (fun l => l) ⟨[], []⟩ "k".data "src".data [0, 1] 0 5).2 9 "k".data =
      .ok true ∧
    cacheValidate (fun l => l)
      { (cachePut (fun l => l) ⟨[], []⟩ "k".data "src".data [0, 1] 0 5).2 with
        files := assocSet
          (cachePut (fun l => l) ⟨[], []⟩ "k".data "src".data [0, 1] 0 5).2.files
          "k".data [0, 2] }
      9 "k".data = .ok false :=
  c6_cache_checksum_integrity (fun l => l) ⟨[], []⟩ "k".data "src".data
    [0, 1] [0, 2] 0 5 9 (by decide) (by decide)

/-- C7: once the encoder and decoder initialize, `Compress` emits exactly
the codec's `EncodeAll` bytes — no header or envelope — and `Decompress`
feeds its input directly to `DecodeAll`, so for any codec satisfying the
zstd round-trip contract, `Decompress (Compress x)` recovers every byte
string x, the empty string included. -/
theorem c7_codec_round_trip (encodeAll : List Nat → List Nat)
    (decodeAll : List Nat → GoResult CodecError (List Nat))
    (hrt : ∀ y, decodeAll (encodeAll y) = .ok y) (x : List Nat) :
    codecCompress none encodeAll x = .ok (encodeAll x) ∧
    codecDecompress none decodeAll (encodeAll x) = .ok x :=
  ⟨rfl, hrt x⟩

/-- C7 witness: the identity codec on the empty byte string. -/
theorem c7_codec_round_trip_witness :
    codecCompress none (fun l => l) ([] : List Nat) = .ok ((fun (l : List Nat) => l) []) ∧
    codecDecompress none (fun l => GoResult.ok l) ((fun (l : List Nat) => l) []) =
      .ok ([] : List Nat) :=
  c7_codec_round_trip (fun l => l) (fun l => .ok l) (fun _ => rfl) []

/-- C8: a non-positive limit at the Store behaves exactly like limit 20; a
missing HTTP limit parameter yields 20; and any parsed HTTP limit above 100
is clamped to 100. -/
theorem c8_limit_boundaries :
    (∀ (fts : List Char → SearchRow → Bool)
        (bm25 : ℚ → ℚ → ℚ → List Char → SearchRow → Int)
        (table : List (SearchRow × List Char)) (q pp : List Char) (limit : Int),
      limit ≤ 0 →
      searchPackage fts bm25 table q pp limit =
        searchPackage fts bm25 table q pp 20) ∧
    requestLimit none = 20 ∧
    (∀ (s : String) (n : Int), goAtoi s.data = some n → 100 < n →
      requestLimit (some s) = 100) := by
  refine ⟨?_, rfl, ?_⟩
  · intro fts bm25 table q pp limit h
    simp only [searchPackage, if_pos h]
    norm_num
  · intro s n h1 h2
    by_cases hs : s = ""
    · subst hs
      simp [goAtoi, digitsToNat] at h1
    · simp only [requestLimit, parseIntParam, if_neg hs, h1]
      rw [if_neg (show ¬ n < 0 by omega), if_pos (show (100 : Int) < n from h2)]

/-- C8 witness: limit -5 at the Store, a missing parameter, and a request
for 250. -/
theorem c8_limit_boundaries_witness :
    searchPackage ftsAll bmZero [] "abc".data [] (-5) =
      searchPackage ftsAll bmZero [] "abc".data [] 20 ∧
    requestLimit none = 20 ∧
    requestLimit (some "250") = 100 :=
  ⟨c8_limit_boundaries.1 ftsAll bmZero [] "abc".data [] (-5) (by decide),
    c8_limit_boundaries.2.1,
    c8_limit_boundaries.2.2 "250" 250 (by decide) (by decide)⟩

/-- C9: when the document is found but its body fails to decompress, the
MCP read_doc handler returns the stored (still compressed) bytes as the
content with format "markdown" and no error. -/
theorem c9_read_doc_swallows_corruption
    (readDocument : List Char → GoResult McpError MDoc)
    (decompress : List Nat → GoResult McpError (List Nat))
    (path : List Char) (doc : MDoc) (e : McpError)
    (hdoc : readDocument path = .ok doc)
    (hdec : decompress doc.body = .err e) :
    readDocHandler readDocument decompress path = .ok ⟨doc.body, "markdown".data⟩ := by
  simp only [readDocHandler, hdoc]
  split
  · rw [hdec]
  · rfl

/-- C9 witness: a corrupt two-byte body behind a fixed reader. -/
theorem c9_read_doc_witness :
    readDocHandler (fun _ => .ok exMDoc) (fun _ => .err .corrupt) "go/x".data =
      .ok ⟨exMDoc.body, "markdown".data⟩ :=
  c9_read_doc_swallows_corruption (fun _ => .ok exMDoc) (fun _ => .err .corrupt)
    "go/x".data exMDoc .corrupt rfl rfl

/-- C10: whenever `performSearch` succeeds, the reported total is the
length of the result slice it returns — computed after the offset skip,
the limit truncation, and the silent dropping of rows whose document could
not be read — never the full number of index matches. -/
theorem c10_total_equals_returned_length
    (fts : List Char → SearchRow → Bool)
    (bm25 : ℚ → ℚ → ℚ → List Char → SearchRow → Int)
    (table : List (SearchRow × List Char)) (readDoc : Int → Option WebDoc)
    (query pkg : List Char) (limit offset : Int)
    (results : List SearchResultItem) (total : Nat)
    (hok : performSearch fts bm25 table readDoc query pkg limit offset =
      .ok (results, total)) :
    total = results.length := by
  simp only [performSearch] at hok
  split at hok
  · cases hok
  · injection hok with h
    injection h with h1 h2
    subst h1
    exact h2.symm

/-- C10 witness: one matching row whose document is unreadable is dropped,
and the reported total is the length of the empty result slice. -/
theorem c10_total_witness :
    (0 : Nat) = ([] : List SearchResultItem).length :=
  c10_total_equals_returned_length ftsAll bmZero [(dialRow, "go/net/dial".data)]
    rdNone "abc".data [] 20 0 [] 0 (by decide)

end Documango
